import Mathlib

/-!
# Verification of the contact-parser repository

Shallow embedding of `src/contact_parser` (phone/email validators, crawler,
parser) together with proofs and refutations of the specification claims.

Modelling conventions:
* Python strings are Lean `String`s (claims concern ASCII data; Python's
  `\d`, `str.isdigit`, `str.lower` agree with `Char.isDigit`, `Char.toLower`
  on ASCII).
* Python `set` is `Finset String`; the unspecified iteration order of a set
  is irrelevant wherever it is used below (results are sets or sorted lists),
  except in the crawler where the batch/completion orders are abstracted as
  explicit parameters.
* Machine floats appear only in `max_repeat_count / len(digits) > 0.7`
  (`validators.py` line 327); with `len(digits) ≤ 15` the comparison is exact
  and equals the integer test `10 * max_repeat_count > 7 * len(digits)`
  (the nearest fractions `m/n`, `n ≤ 15`, differ from `7/10` by at least
  `1/150`, far above double rounding error, and `7/10` itself rounds to the
  same double as the literal `0.7`).
-/

namespace ContactParser

/-! ## PhoneValidator (`src/contact_parser/validators.py`) -/

/-- Characters kept by `re.sub(r"[^\d+]", "", phone)`: digits and `+`. -/
def keepChar (c : Char) : Bool := c.isDigit || c == '+'

/-- `PhoneValidator._clean_phone` (validators.py 263-281), on char lists:
keep digits and pluses, drop pluses after position 0 of the cleaned string,
re-attach a leading `+` if the input started with one (dead in practice). -/
def cleanPhoneList (l : List Char) : List Char :=
  let hasPlus : Bool := l.head? == some '+'
  let cleaned := l.filter keepChar
  let cleaned2 :=
    match cleaned with
    | [] => []
    | c :: rest =>
        if rest.contains '+' then c :: rest.filter (fun d => d != '+')
        else c :: rest
  if hasPlus && !(cleaned2.head? == some '+') then '+' :: cleaned2 else cleaned2

/-- `PhoneValidator._clean_phone` on strings (`if not phone: return ""`). -/
def cleanPhone (s : String) : String :=
  if s.isEmpty then "" else ⟨cleanPhoneList s.data⟩

/-- `PhoneValidator.VALID_COUNTRY_CODES` (validators.py 26-235). -/
def validCountryCodes : List String :=
  ["1", "7", "20", "27", "30", "31", "32", "33", "34", "36", "39", "40",
   "41", "43", "44", "45", "46", "47", "48", "49", "51", "52", "53", "54",
   "55", "56", "57", "58", "60", "61", "62", "63", "64", "65", "66", "81",
   "82", "84", "86", "90", "91", "92", "93", "94", "95", "98", "211", "212",
   "213", "216", "218", "220", "221", "222", "223", "224", "225", "226",
   "227", "228", "229", "230", "231", "232", "233", "234", "235", "236",
   "237", "238", "239", "240", "241", "242", "243", "244", "245", "246",
   "247", "248", "249", "250", "251", "252", "253", "254", "255", "256",
   "257", "258", "259", "260", "261", "262", "263", "264", "265", "266",
   "267", "268", "269", "290", "291", "297", "298", "299", "350", "351",
   "352", "353", "354", "355", "356", "357", "358", "359", "370", "371",
   "372", "373", "374", "375", "376", "377", "378", "379", "380", "381",
   "382", "383", "385", "386", "387", "389", "420", "421", "423", "500",
   "501", "502", "503", "504", "505", "506", "507", "508", "509", "590",
   "591", "592", "593", "594", "595", "596", "597", "598", "599", "670",
   "672", "673", "674", "675", "676", "677", "678", "679", "680", "681",
   "682", "683", "685", "686", "687", "688", "689", "690", "691", "692",
   "850", "852", "853", "855", "856", "880", "886", "960", "961", "962",
   "963", "964", "965", "966", "967", "968", "970", "971", "972", "973",
   "974", "975", "976", "977", "992", "993", "994", "995", "996", "998"]

/-- The ascending/descending six-digit runs of `NOT_PHONE_PATTERNS`
(validators.py 246-255): `^123456\d*$` … `^654321\d*$`. -/
def seqRunStarts : List (List Char) :=
  ["123456".data, "234567".data, "345678".data, "456789".data,
   "567890".data, "098765".data, "987654".data, "876543".data,
   "765432".data, "654321".data]

/-- `re.match` test for the `NOT_PHONE_PATTERNS` list (validators.py 238-258):
1-5 digits, 16+ digits, one digit repeated 6+ times, a six-digit run followed
by digits, or an all-binary string. -/
def notPhonePattern (digits : List Char) : Bool :=
  (digits.all Char.isDigit && decide (1 ≤ digits.length ∧ digits.length ≤ 5))
  || (digits.all Char.isDigit && decide (16 ≤ digits.length))
  || (match digits with
      | [] => false
      | c :: rest => c.isDigit && decide (6 ≤ digits.length) && rest.all (fun d => d == c))
  || seqRunStarts.any (fun p =>
        digits.take 6 == p && (digits.drop 6).all Char.isDigit)
  || (!digits.isEmpty && digits.all (fun c => c == '0' || c == '1'))

/-- `PhoneValidator.SUSPICIOUS_STARTS` (validators.py 261). -/
def suspiciousStarts : List (List Char) :=
  ["494".data, "443".data, "475".data, "476".data, "172".data, "173".data]

/-- `digits.startswith(start)` test of validators.py 313-317. -/
def suspiciousStart (digits : List Char) : Bool :=
  suspiciousStarts.any (fun p => digits.take p.length == p)

/-- `len(set(digits))`. -/
def uniqueCount (digits : List Char) : Nat := digits.dedup.length

/-- `max(digits.count(d) for d in set(digits))` (0 on the unreachable empty
list, where Python would raise). -/
def maxRepeatCount (digits : List Char) : Nat :=
  (digits.dedup.map (fun d => digits.count d)).foldr max 0

/-- `int(c)` for a digit character. -/
def charVal (c : Char) : Nat := c.toNat - '0'.toNat

/-- Segment check of `_is_sequential`: each char is the previous one plus 1
modulo 10, starting from `v`. -/
def ascFrom (v : Nat) : List Char → Bool
  | [] => true
  | c :: rest => (charVal c == v) && ascFrom ((v + 1) % 10) rest

/-- Descending variant: `int(segment[j]) == (int(segment[0]) - j) % 10`. -/
def descFrom (v : Nat) : List Char → Bool
  | [] => true
  | c :: rest => (charVal c == v) && descFrom ((v + 9) % 10) rest

/-- `PhoneValidator._is_sequential` (validators.py 374-392). -/
def isSequentialL (digits : List Char) : Bool :=
  if digits.length < 6 then false
  else
    (List.range (digits.length - 5)).any (fun i =>
      let seg := (digits.drop i).take 6
      match seg.head? with
      | none => false
      | some c => ascFrom (charVal c) seg)
    || (List.range (digits.length - 5)).any (fun i =>
      let seg := (digits.drop i).take 6
      match seg.head? with
      | none => false
      | some c => descFrom (charVal c) seg)

/-- `PhoneValidator._is_too_perfect` (validators.py 394-418): all identical,
an alternating two-digit pattern (length ≥ 8), a full palindrome or mirrored
halves (length ≥ 6). -/
def isTooPerfectL (digits : List Char) : Bool :=
  (uniqueCount digits == 1)
  || (decide (8 ≤ digits.length)
      && (digits.take 2).dedup.length == 2
      && List.flatten (List.replicate (digits.length / 2) (digits.take 2))
          == digits.take (digits.length / 2 * 2))
  || (decide (6 ≤ digits.length) && digits == digits.reverse)
  || (decide (6 ≤ digits.length) && digits.length % 2 == 0
      && digits.take (digits.length / 2) == (digits.drop (digits.length / 2)).reverse)

/-- `PhoneValidator._is_valid_local_number` (validators.py 420-442); Python
indexes `digits[0]`, reached only on nonempty input, modelled via `head?`. -/
def isValidLocalNumber (digits : List Char) : Bool :=
  !(digits.head? == some '0')
  && decide (3 ≤ uniqueCount digits)
  && !(((digits.all Char.isDigit && digits.length == 8)
        || (digits.all Char.isDigit && digits.length == 10))
       && decide (uniqueCount digits < 4))

/-- `cleaned.startswith("+")`, as a test on the underlying char list. -/
def headIsPlus (l : List Char) : Bool := l.head? == some '+'

/-- Step 10 of `is_likely_phone` (validators.py 342-361): scan country-code
prefixes of length 1 to `min(4, len)`, accept when the remainder has 6-14
digits; otherwise accept any 8-14 digit string. -/
def plusBranch (digits : List Char) : Bool :=
  ((List.range (min 4 digits.length)).map (· + 1)).any (fun i =>
      validCountryCodes.contains ⟨digits.take i⟩
      && decide (6 ≤ digits.length - i ∧ digits.length - i ≤ 14))
  || decide (8 ≤ digits.length ∧ digits.length ≤ 14)

/-- Step 11 of `is_likely_phone` (validators.py 363-369): local numbers. -/
def localBranch (digits : List Char) : Bool :=
  decide (7 ≤ digits.length ∧ digits.length ≤ 12) && isValidLocalNumber digits

/-- The body of `PhoneValidator.is_likely_phone` (validators.py 283-372)
after cleaning, as a conjunction of its early-return checks (each failing
check returns `False`, so the sequential returns are one conjunction).
`digits = cleaned.lstrip("+")`. -/
def likelyCore (cleaned : List Char) : Bool :=
  !cleaned.isEmpty
  && (let digits := cleaned.dropWhile (fun c => c == '+')
      decide (7 ≤ digits.length ∧ digits.length ≤ 15)
      && (digits.all Char.isDigit && !digits.isEmpty)
      && !notPhonePattern digits
      && !suspiciousStart digits
      && decide (3 ≤ uniqueCount digits)
      && !decide (7 * digits.length < 10 * maxRepeatCount digits)
      && !(decide (8 ≤ digits.length) && isSequentialL digits)
      && !isTooPerfectL digits
      && (if headIsPlus cleaned then plusBranch digits
          else localBranch digits))

/-- `PhoneValidator.is_likely_phone` (validators.py 283-372). The source has
no page-URL / domain-context parameter. -/
def isLikelyPhone (phone : String) : Bool :=
  !phone.isEmpty && likelyCore (cleanPhone phone).data

/-- `PhoneValidator.normalize_phone` (validators.py 444-528). The external
`phonenumbers` library is not part of this repository, so the import-failure
path (`HAS_PHONENUMBERS = False`, validators.py 5-11) is the modelled
behavior: the simple normalization of lines 487-528. -/
def normalizePhone (phone : String) : Option String :=
  if phone.isEmpty then none
  else if !isLikelyPhone phone then none
  else
    let cleaned := cleanPhone phone
    let digits := cleaned.data.dropWhile (fun c => c == '+')
    if headIsPlus cleaned.data then some cleaned
    else if digits.length == 10
        && (digits.head? == some '7' || digits.head? == some '8'
            || digits.head? == some '9') then
      some ("+7" ++ ⟨digits⟩)
    else if digits.length == 11 && digits.take 1 == ['8'] then
      some ("+7" ++ ⟨digits.drop 1⟩)
    else if digits.length == 11 && digits.take 1 == ['7'] then
      some ("+" ++ ⟨digits⟩)
    else if digits.length == 9
        && ["25", "29", "33", "44"].contains (⟨digits.take 2⟩ : String) then
      some ("+375" ++ ⟨digits⟩)
    else if digits.length == 12 && digits.take 3 == "375".data then
      some ("+" ++ ⟨digits⟩)
    else if digits.length == 9
        && ["50", "66", "95", "99", "63", "73", "93"].contains
            (⟨digits.take 2⟩ : String) then
      some ("+380" ++ ⟨digits⟩)
    else if digits.length == 12 && digits.take 3 == "380".data then
      some ("+" ++ ⟨digits⟩)
    else if 7 ≤ digits.length ∧ digits.length ≤ 12 then
      some ("+" ++ ⟨digits⟩)
    else none

/-- `PhoneValidator.validate_and_normalize_phones` (validators.py 530-547):
normalize each raw candidate, keep truthy results that re-pass
`is_likely_phone`, return the sorted deduplicated list. -/
def validateAndNormalizePhones (phones : List String) : List String :=
  (((phones.filterMap normalizePhone).filter
      (fun n => !n.isEmpty && isLikelyPhone n)).toFinset).sort (· ≤ ·)

/-! ## EmailValidator (`src/contact_parser/validators.py` 550-625) -/

/-- `EmailValidator.BAD_DOMAINS` (validators.py 554-572). -/
def badDomains : List String :=
  ["example.com", "example.ru", "example.org", "test.com", "test.ru",
   "test.org", "domain.com", "domain.ru", "domain.org", "email.com",
   "email.ru", "email.org", "site.com", "site.ru", "site.org",
   "yoursite.com", "yourdomain.com"]

/-- `str.lower()` (ASCII), on the character list. -/
def strLower (s : String) : String := ⟨s.data.map Char.toLower⟩

/-- Local part of `email.split("@", 1)`: everything before the first `@`. -/
def emailLocalPart (e : String) : String := ⟨e.data.takeWhile (fun c => c != '@')⟩

/-- Domain part of `email.split("@", 1)`: everything after the first `@`. -/
def emailDomain (e : String) : String :=
  ⟨(e.data.dropWhile (fun c => c != '@')).tail⟩

/-- A character of the class `[a-zA-Z0-9._%+-]` (local-part character). -/
def localPartChar (c : Char) : Bool :=
  (c.isUpper || c.isLower) || c.isDigit || c == '.' || c == '_' || c == '%'
  || c == '+' || c == '-'

/-- A character of the class `[a-zA-Z0-9.-]` (domain character). -/
def domainChar (c : Char) : Bool :=
  (c.isUpper || c.isLower) || c.isDigit || c == '.' || c == '-'

/-- `re.match(r"^[a-zA-Z0-9._%+-]+$", local_part)`. -/
def localPartMatch (l : List Char) : Bool :=
  !l.isEmpty && l.all localPartChar

/-- `re.match(r"^[a-zA-Z0-9.-]+\.[a-zA-Z]{2,}$", domain)`: some dot splits the
string into a nonempty domain-character prefix and an all-alphabetic suffix of
length at least 2. -/
def domainMatch (l : List Char) : Bool :=
  (List.range l.length).any (fun k =>
    l.get? k == some '.'
    && decide (1 ≤ k)
    && (l.take k).all domainChar
    && decide (2 ≤ (l.drop (k + 1)).length)
    && (l.drop (k + 1)).all (fun c => c.isUpper || c.isLower))

/-- `EmailValidator.is_valid_email` (validators.py 574-606), its sequential
early `False` returns written as one conjunction. -/
def isValidEmail (email : String) : Bool :=
  (!email.isEmpty && email.data.contains '@')
  && !decide (64 < (emailLocalPart email).length ∨ 255 < (emailDomain email).length)
  && (emailDomain email).data.contains '.'
  && !((emailDomain email).data.head? == some '.'
       || (emailDomain email).data.getLast? == some '.')
  && !(badDomains.contains (strLower (emailDomain email)))
  && localPartMatch (emailLocalPart email).data
  && domainMatch (emailDomain email).data

/-- `EmailValidator.normalize_email` (validators.py 608-612). -/
def normalizeEmail (email : String) : String := (strLower email).trim

/-- `EmailValidator.validate_and_normalize_emails` (validators.py 614-625). -/
def validateAndNormalizeEmails (emails : List String) : List String :=
  (((emails.map normalizeEmail).filter isValidEmail).toFinset).sort (· ≤ ·)

/-! ## Crawler (`src/contact_parser/crawler.py`) and parser (`parser.py`)

The crawler's externals (HTTP fetch, `urllib` parsing, wall-clock time,
thread-pool scheduling) are abstracted as parameters of a `CrawlEnv`; the
repository's own control flow (`process_page`, the `crawl` loop, `parse_website`)
is embedded faithfully over them. -/

/-- Outcome of `WebsiteCrawler.fetch_page` (crawler.py 39-94) for one URL:
a successful HTML body, the silent `None` for an oversized body (line 68), or
one of the raised errors (`NetworkError`, `ContentTypeError`, or an unexpected
exception re-raised at line 94). -/
inductive FetchResult where
  | page (html : String)
  | oversized
  | netError
  | contentTypeError
  | otherError
  deriving DecidableEq

/-- A Python exception escaping a modelled call. -/
inductive PyError where
  | typeError
  | netError
  | contentTypeError
  | otherError
  deriving DecidableEq

/-- Output dictionary of `DataExtractor.extract_from_html`. -/
structure ExtractorOutput where
  emails : Finset String
  phones : Finset String
  links : Finset String
  deriving DecidableEq

/-- The `result` dict built by `process_page` (crawler.py 114-119). -/
structure PageRes where
  url : String
  emails : Finset String
  phones : Finset String
  links : Finset String
  deriving DecidableEq

/-- Number of positional parameters (after `self`) of
`DataExtractor.extract_from_html` (extractors.py 51): exactly one, `html`. -/
def extractFromHtmlArity : Nat := 1

/-- Calling `extract_from_html` with a positional argument list: Python raises
`TypeError` unless the call supplies exactly `extractFromHtmlArity` arguments.
`f` is the (abstracted) semantic function of the method body. -/
def callExtract (f : String → ExtractorOutput) (args : List String) :
    Except PyError ExtractorOutput :=
  match args with
  | [a] => Except.ok (f a)
  | _ => Except.error PyError.typeError

/-- Abstracted collaborators of one crawl: fetching, extraction semantics,
`urllib`-based URL helpers, per-task timeout, wall clock, scheduling orders,
and the pydantic settings. -/
structure CrawlEnv where
  fetch : String → FetchResult
  extractFn : String → ExtractorOutput
  validateUrl : String → Bool
  getDomain : String → Option String
  normalizeUrl : String → String → Option String
  isSameDomain : String → String → Bool
  taskTimeout : String → Bool
  elapsed : Nat → ℚ
  timeout : ℚ
  pick : Finset String → List String
  completionOrder : List String → List String
  maxWorkers : Nat
  maxPages : Nat
  isHttpUrl : String → Bool

/-- The scheduling abstractions behave like the Python constructs they stand
for: `list(to_visit)[:max_workers]` returns distinct members of the set, is
nonempty on a nonempty set, and is bounded by the worker count;
`as_completed` yields a permutation of the submitted batch. -/
def CrawlEnv.Sane (env : CrawlEnv) : Prop :=
  (∀ S : Finset String, (env.pick S).Nodup) ∧
  (∀ S : Finset String, ∀ u ∈ env.pick S, u ∈ S) ∧
  (∀ S : Finset String, S ≠ ∅ → env.pick S ≠ []) ∧
  (∀ S : Finset String, (env.pick S).length ≤ env.maxWorkers) ∧
  (∀ l : List String, List.Perm (env.completionOrder l) l) ∧
  1 ≤ env.maxPages

/-- `WebsiteCrawler.process_page` (crawler.py 96-129): the `try` body with
exceptions as `Except`. Line 105 is the call
`self.data_extractor.extract_from_html(page_data["html"], url)` — two
positional arguments. -/
def processPageBody (env : CrawlEnv) (url baseDomain : String) :
    Except PyError (String × Option PageRes × Finset String) :=
  match env.fetch url with
  | FetchResult.page html =>
      match callExtract env.extractFn [html, url] with
      | Except.ok ex =>
          let filteredLinks :=
            ex.links.filter (fun link =>
              (env.normalizeUrl link url).elim false
                (fun n => env.isSameDomain n baseDomain) = true)
          let filteredLinks := filteredLinks.image (fun link =>
              (env.normalizeUrl link url).getD link)
          Except.ok (url, some ⟨url, ex.emails, ex.phones, filteredLinks⟩, filteredLinks)
      | Except.error e => Except.error e
  | FetchResult.oversized => Except.ok (url, none, ∅)
  | FetchResult.netError => Except.error PyError.netError
  | FetchResult.contentTypeError => Except.error PyError.contentTypeError
  | FetchResult.otherError => Except.error PyError.otherError

/-- `process_page` with its two `except` clauses (crawler.py 124-129): every
exception is caught and yields `(url, None, set())`. -/
def processPage (env : CrawlEnv) (url baseDomain : String) :
    String × Option PageRes × Finset String :=
  match processPageBody env url baseDomain with
  | Except.ok t => t
  | Except.error _ => (url, none, ∅)

/-- One frontier/visited bookkeeping event of the crawl loop. -/
inductive CrawlEvent where
  | addFrontier (u : String)
  | visit (u : String)
  deriving DecidableEq

/-- State of the `crawl` loop (crawler.py 146-193), with an event log of
every `to_visit.add` / `visited.add` call for the invariants of the claims. -/
structure CrawlState where
  visited : Finset String
  toVisit : Finset String
  results : List PageRes
  log : List CrawlEvent
  round : Nat

/-- Handling one completed future (crawler.py 169-187): a timed-out
`future.result` is caught and the URL only marked visited; otherwise the
page's triple is consumed, appending its result and enqueueing its fresh
links. -/
def handleUrl (env : CrawlEnv) (baseDomain : String) (s : CrawlState)
    (url : String) : CrawlState :=
  if env.taskTimeout url then
    { s with visited := insert url s.visited, log := s.log ++ [CrawlEvent.visit url] }
  else
    match processPage env url baseDomain with
    | (u, res, newLinks) =>
      let s :=
        { s with visited := insert u s.visited, log := s.log ++ [CrawlEvent.visit u] }
      match res with
      | none => s
      | some r =>
        let s := { s with results := s.results ++ [r] }
        (newLinks.sort (· ≤ ·)).foldl
          (fun st link =>
            if link ∉ st.visited ∧ link ∉ st.toVisit then
              { st with toVisit := insert link st.toVisit,
                        log := st.log ++ [CrawlEvent.addFrontier link] }
            else st)
          s

/-- One round of the while loop (crawler.py 161-193): take a batch of at most
`max_workers` URLs out of the frontier, process the completed futures in
`as_completed` order. -/
def crawlRound (env : CrawlEnv) (baseDomain : String) (s : CrawlState) :
    CrawlState :=
  let batch := env.pick s.toVisit
  let s1 := { s with toVisit := s.toVisit \ batch.toFinset }
  let s2 := (env.completionOrder batch).foldl (handleUrl env baseDomain) s1
  { s2 with round := s2.round + 1 }

/-- The while loop (crawler.py 155-193) with explicit fuel. The guard is
`while to_visit and len(visited) < max_pages`; the break inside is the time
check `time.time() - start_time > max_time` with
`max_time = timeout * max_pages` (line 152). Each executed round moves at
least one URL from the frontier into `visited`, so `maxPages + 1` fuel always
reaches a guard exit (proved below for the states `crawl` reaches). -/
def crawlLoop (env : CrawlEnv) (baseDomain : String) (maxPages : Nat) :
    Nat → CrawlState → CrawlState
  | 0, s => s
  | fuel + 1, s =>
      if s.toVisit = ∅ ∨ maxPages ≤ s.visited.card then s
      else if env.timeout * maxPages < env.elapsed s.round then s
      else crawlLoop env baseDomain maxPages fuel (crawlRound env baseDomain s)

/-- A fatal error of `crawl` (crawler.py 134-141): invalid start URL or no
extractable domain, both raised as `ValueError` before any fetch. -/
inductive CrawlError where
  | invalidUrl
  | noDomain
  deriving DecidableEq

/-- `max_pages = max_pages or self.settings.max_pages` (crawler.py 137):
`None` and `0` are falsy, substituting the settings value. -/
def resolveMp (env : CrawlEnv) : Option Nat → Nat
  | some m => if m = 0 then env.maxPages else m
  | none => env.maxPages

/-- `WebsiteCrawler.crawl` (crawler.py 131-199). `mpArg` models the optional
`max_pages` argument. -/
def crawl (env : CrawlEnv) (startUrl : String) (mpArg : Option Nat) :
    Except CrawlError (List PageRes × CrawlState) :=
  if !env.validateUrl startUrl then Except.error CrawlError.invalidUrl
  else
    match env.getDomain startUrl with
    | none => Except.error CrawlError.noDomain
    | some baseDomain =>
      let mp := resolveMp env mpArg
      let s0 : CrawlState :=
        ⟨∅, {startUrl}, [], [CrawlEvent.addFrontier startUrl], 0⟩
      let sf := crawlLoop env baseDomain mp (mp + 1) s0
      Except.ok (sf.results, sf)

/-- `ContactInfo` (models.py 7-31) after pydantic field validation. -/
structure ContactInfo where
  url : String
  emails : List String
  phones : List String
  deriving DecidableEq

/-- Field validator `validate_emails_list` (models.py 12-20): keep entries
with an `@` and a dot in `email.split("@")[1]` (the segment between the first
and second `@`), lowercased and stripped. -/
def validateEmailsList (emails : List String) : List String :=
  (emails.filter (fun e =>
      e.data.contains '@'
      && (((e.data.dropWhile (fun c => c != '@')).tail).takeWhile
            (fun c => c != '@')).contains '.')).map
    (fun e => (strLower e).trim)

/-- Field validator `validate_phones_list` (models.py 22-31): keep entries
whose digit count is between 6 and 15, stripped. -/
def validatePhonesList (phones : List String) : List String :=
  (phones.filter (fun p =>
      decide (6 ≤ (p.data.filter Char.isDigit).length
        ∧ (p.data.filter Char.isDigit).length ≤ 15))).map String.trim

/-- Constructing `ContactInfo(url=..., emails=..., phones=...)`: pydantic
raises on a non-`HttpUrl` url (abstracted as `env.isHttpUrl`), otherwise runs
the two field validators. -/
def mkContactInfo (env : CrawlEnv) (url : String)
    (emails phones : List String) : Option ContactInfo :=
  if env.isHttpUrl url then
    some ⟨url, validateEmailsList emails, validatePhonesList phones⟩
  else none

/-- Aggregation in `parse_website` (parser.py 47-53): union the per-page
email sets. `list(...)` of a Python set is determinized as the sorted list. -/
def aggEmails (pages : List PageRes) : List String :=
  (pages.foldl (fun (acc : Finset String) (p : PageRes) => acc ∪ p.emails)
    (∅ : Finset String)).sort (· ≤ ·)

/-- Aggregation of the per-page phone sets. -/
def aggPhones (pages : List PageRes) : List String :=
  (pages.foldl (fun (acc : Finset String) (p : PageRes) => acc ∪ p.phones)
    (∅ : Finset String)).sort (· ≤ ·)

/-- `ContactParser.parse_website` (parser.py 30-69): crawl, aggregate, build
`ContactInfo`; any exception falls back to an empty `ContactInfo`, and a
failing fallback to the `error.invalid` one (lines 64-69). -/
def parseWebsite (env : CrawlEnv) (startUrl : String) : ContactInfo :=
  let fallback : ContactInfo :=
    match mkContactInfo env startUrl [] [] with
    | some ci => ci
    | none => ⟨"https://error.invalid", [], []⟩
  match crawl env startUrl none with
  | Except.ok (pages, _) =>
      match mkContactInfo env startUrl (aggEmails pages) (aggPhones pages) with
      | some ci => ci
      | none => fallback
  | Except.error _ => fallback

/-- The URLs of the `visited.add` events of a crawl log. -/
def visitEvents (log : List CrawlEvent) : List String :=
  log.filterMap (fun e =>
    match e with
    | CrawlEvent.visit u => some u
    | CrawlEvent.addFrontier _ => none)

/-- Frontier discipline over a crawl's event log: every `to_visit.add` call
concerns a URL that was never added to the frontier before and was not in
the visited set at that moment. -/
def frontierOk : Finset String → Finset String → List CrawlEvent → Bool
  | _, _, [] => true
  | added, visited, CrawlEvent.addFrontier u :: rest =>
      (decide (u ∉ added) && decide (u ∉ visited))
        && frontierOk (insert u added) visited rest
  | added, visited, CrawlEvent.visit u :: rest =>
      frontierOk added (insert u visited) rest

/-- A concrete environment (an all-timeouts site with one worker), used to
instantiate the crawler theorems. -/
def sampleEnv : CrawlEnv where
  fetch := fun _ => FetchResult.netError
  extractFn := fun _ => ⟨∅, ∅, ∅⟩
  validateUrl := fun _ => true
  getDomain := fun _ => some "e.com"
  normalizeUrl := fun _ _ => none
  isSameDomain := fun _ _ => false
  taskTimeout := fun _ => false
  elapsed := fun _ => 0
  timeout := 1
  pick := fun S => (S.sort (· ≤ ·)).take 1
  completionOrder := fun l => l
  maxWorkers := 1
  maxPages := 1
  isHttpUrl := fun _ => true

/-- The final crawl state of `sampleEnv` on seed `"u"`. -/
def sampleFinal : CrawlState :=
  ⟨{"u"}, ∅, [], [CrawlEvent.addFrontier "u", CrawlEvent.visit "u"], 1⟩

/-! ## Helper lemmas about `_clean_phone` -/

lemma keepChar_plus : keepChar '+' = true := by decide

lemma keepChar_of_isDigit {c : Char} (h : c.isDigit = true) : keepChar c = true := by
  simp [keepChar, h]

lemma ne_plus_of_isDigit {c : Char} (h : c.isDigit = true) : c ≠ '+' := by
  intro he
  subst he
  simp [Char.isDigit] at h

lemma filter_keep_head_of_plus {l : List Char} (h : l.head? = some '+') :
    (l.filter keepChar).head? = some '+' := by
  cases l with
  | nil => simp at h
  | cons a t =>
      simp only [List.head?_cons, Option.some.injEq] at h
      subst h
      simp [List.filter_cons, keepChar_plus]

lemma filter_isDigit_eq_filter_keep (l : List Char) :
    l.filter Char.isDigit = (l.filter keepChar).filter (fun d => d != '+') := by
  rw [List.filter_filter]
  apply List.filter_congr
  intro c _
  by_cases hc : c = '+'
  · subst hc
    decide
  · have h1 : (c == '+') = false := beq_eq_false_iff_ne.mpr hc
    have h2 : (c != '+') = true := by
      rw [bne_iff_ne]
      exact hc
    rw [h2, keepChar, h1]
    simp

/-- Characterization of `_clean_phone`: the result is the digits of the
input, prefixed with `+` exactly when the first kept (digit-or-plus)
character of the input is `+`. -/
lemma cleanPhoneList_eq (l : List Char) :
    cleanPhoneList l =
      (if (l.filter keepChar).head? = some '+' then ['+'] else [])
        ++ l.filter Char.isDigit := by
  unfold cleanPhoneList
  cases hf : l.filter keepChar with
  | nil =>
      have hhp : (l.head? == some '+') = false := by
        rw [beq_eq_false_iff_ne]
        intro hh
        have := filter_keep_head_of_plus hh
        rw [hf] at this
        simp at this
      rw [filter_isDigit_eq_filter_keep, hf]
      simp [hhp]
  | cons c rest =>
      have hdig := filter_isDigit_eq_filter_keep l
      rw [hf] at hdig
      by_cases hc : c = '+'
      · subst hc
        have hhead : (('+' :: rest).head? = some '+') := rfl
        by_cases hr : rest.contains '+'
        · simp only [hr, if_true, hdig, List.filter_cons]
          simp
        · have hrf : rest.filter (fun d => d != '+') = rest := by
            apply List.filter_eq_self.mpr
            intro a ha
            rw [bne_iff_ne]
            intro he
            subst he
            exact hr (List.elem_iff.mpr ha)
          simp only [hr, if_false, hdig, List.filter_cons]
          simp [hrf]
      · have hhp : (l.head? == some '+') = false := by
          rw [beq_eq_false_iff_ne]
          intro hh
          have := filter_keep_head_of_plus hh
          rw [hf] at this
          simp at this
          exact hc this
        have hcf : (c != '+') = true := by
          rw [bne_iff_ne]
          exact hc
        by_cases hr : rest.contains '+'
        · simp only [hr, if_true, hhp, Bool.false_and, if_false, hdig,
            List.filter_cons, hcf]
          simp [hc]
        · have hrf : rest.filter (fun d => d != '+') = rest := by
            apply List.filter_eq_self.mpr
            intro a ha
            rw [bne_iff_ne]
            intro he
            subst he
            exact hr (List.elem_iff.mpr ha)
          simp only [hr, if_false, hhp, Bool.false_and, hdig,
            List.filter_cons, hcf]
          simp [hc, hrf]

lemma cleanPhone_data (s : String) :
    (cleanPhone s).data = cleanPhoneList s.data := by
  unfold cleanPhone
  split
  · rename_i h
    rw [String.isEmpty_iff] at h
    subst h
    rfl
  · rfl

lemma cleanPhoneList_of_digits {ds : List Char}
    (hds : ∀ c ∈ ds, c.isDigit = true) : cleanPhoneList ds = ds := by
  rw [cleanPhoneList_eq]
  have hkeep : ds.filter keepChar = ds :=
    List.filter_eq_self.mpr fun a ha => keepChar_of_isDigit (hds a ha)
  have hdig : ds.filter Char.isDigit = ds :=
    List.filter_eq_self.mpr fun a ha => hds a ha
  rw [hkeep, hdig]
  cases ds with
  | nil => simp
  | cons d t =>
      have : d ≠ '+' := ne_plus_of_isDigit (hds d (by simp))
      simp [this]

lemma cleanPhoneList_plus_digits {ds : List Char}
    (hds : ∀ c ∈ ds, c.isDigit = true) :
    cleanPhoneList ('+' :: ds) = '+' :: ds := by
  rw [cleanPhoneList_eq]
  have hkeep : ds.filter keepChar = ds :=
    List.filter_eq_self.mpr fun a ha => keepChar_of_isDigit (hds a ha)
  have hdig : ds.filter Char.isDigit = ds :=
    List.filter_eq_self.mpr fun a ha => hds a ha
  simp [List.filter_cons, keepChar_plus, hkeep, hdig]

/-- `_clean_phone` is idempotent. -/
lemma cleanPhone_idem (s : String) : cleanPhone (cleanPhone s) = cleanPhone s := by
  apply String.ext
  rw [cleanPhone_data (cleanPhone s), cleanPhone_data s, cleanPhoneList_eq s.data]
  have hds : ∀ c ∈ s.data.filter Char.isDigit, c.isDigit = true :=
    fun c hc => List.of_mem_filter hc
  split
  · exact cleanPhoneList_plus_digits hds
  · exact cleanPhoneList_of_digits hds

/-! ## Helper lemmas about the crawler -/

/-- The call at crawler.py 105 passes two positional arguments to the
one-parameter `extract_from_html`, so every successful fetch ends in a
`TypeError`; with every other fetch outcome also yielding no data,
`process_page` is the constant `(url, None, set())`. -/
lemma processPage_eq (env : CrawlEnv) (url baseDomain : String) :
    processPage env url baseDomain = (url, none, ∅) := by
  unfold processPage processPageBody callExtract
  cases env.fetch url <;> rfl

lemma handleUrl_eq (env : CrawlEnv) (baseDomain : String) (s : CrawlState)
    (url : String) :
    handleUrl env baseDomain s url =
      { s with visited := insert url s.visited,
               log := s.log ++ [CrawlEvent.visit url] } := by
  unfold handleUrl
  rw [processPage_eq]
  split <;> rfl

lemma foldl_handleUrl (env : CrawlEnv) (baseDomain : String)
    (l : List String) (s : CrawlState) :
    l.foldl (handleUrl env baseDomain) s =
      { s with visited := s.visited ∪ l.toFinset,
               log := s.log ++ l.map CrawlEvent.visit } := by
  induction l generalizing s with
  | nil => simp
  | cons a t ih =>
      rw [List.foldl_cons, handleUrl_eq, ih]
      simp only [List.toFinset_cons, List.map_cons]
      congr 1
      · rw [Finset.union_insert, Finset.insert_union]
      · rw [List.append_assoc]
        rfl

lemma crawlRound_eq (env : CrawlEnv) (baseDomain : String) (s : CrawlState) :
    crawlRound env baseDomain s =
      ⟨s.visited ∪ (env.completionOrder (env.pick s.toVisit)).toFinset,
       s.toVisit \ (env.pick s.toVisit).toFinset,
       s.results,
       s.log ++ (env.completionOrder (env.pick s.toVisit)).map CrawlEvent.visit,
       s.round + 1⟩ := by
  unfold crawlRound
  simp only [foldl_handleUrl]

lemma crawlLoop_of_guard (env : CrawlEnv) (baseDomain : String)
    (maxPages fuel : Nat) (s : CrawlState)
    (h : s.toVisit = ∅ ∨ maxPages ≤ s.visited.card) :
    crawlLoop env baseDomain maxPages fuel s = s := by
  cases fuel with
  | zero => rfl
  | succ n =>
      unfold crawlLoop
      rw [if_pos h]

/-- `list(to_visit)[:max_workers]` on a singleton frontier is that one URL. -/
lemma pick_singleton (env : CrawlEnv) (hs : env.Sane) (a : String) :
    env.pick {a} = [a] := by
  obtain ⟨hnd, hsub, hne, -, -, -⟩ := hs
  cases hl : env.pick {a} with
  | nil => exact absurd hl (hne {a} (Finset.singleton_ne_empty a))
  | cons x t =>
      have hx : x = a := by
        have := hsub {a} x (by rw [hl]; exact List.mem_cons_self x t)
        simpa using this
      subst hx
      cases t with
      | nil => rfl
      | cons y t2 =>
          have hy : y = x := by
            have := hsub {x} y (by rw [hl]; simp)
            simpa using this
          have := hnd {x}
          rw [hl, hy] at this
          simp at this

lemma completionOrder_singleton (env : CrawlEnv) (hs : env.Sane) (a : String) :
    env.completionOrder [a] = [a] :=
  List.perm_singleton.mp (hs.2.2.2.2.1 [a])

/-- The resolved page budget is positive for sane settings. -/
lemma resolveMp_pos (env : CrawlEnv) (hs : env.Sane) (mpArg : Option Nat) :
    1 ≤ resolveMp env mpArg := by
  have h1 := hs.2.2.2.2.2
  cases mpArg with
  | none => exact h1
  | some m =>
      by_cases hm : m = 0
      · simp [resolveMp, hm]
        exact h1
      · simp [resolveMp, hm]
        omega

/-- The state after the seed round: the seed is visited, the frontier is
empty (`process_page` contributes no links), nothing was collected. -/
lemma crawlRound_seed (env : CrawlEnv) (hs : env.Sane)
    (baseDomain start : String) :
    crawlRound env baseDomain ⟨∅, {start}, [], [CrawlEvent.addFrontier start], 0⟩ =
      ⟨{start}, ∅, [],
        [CrawlEvent.addFrontier start, CrawlEvent.visit start], 1⟩ := by
  rw [crawlRound_eq]
  simp [pick_singleton env hs, completionOrder_singleton env hs]

/-- The two final states one `crawl` call can reach: the seed state (time
budget already exceeded at the first check) or the one-round state. -/
lemma crawl_run (env : CrawlEnv) (hs : env.Sane) (start : String)
    (mpArg : Option Nat) (baseDomain : String)
    (hv : env.validateUrl start = true)
    (hd : env.getDomain start = some baseDomain) :
    crawl env start mpArg =
      Except.ok ([],
        if env.timeout * (resolveMp env mpArg) < env.elapsed 0 then
          (⟨∅, {start}, [], [CrawlEvent.addFrontier start], 0⟩ : CrawlState)
        else
          ⟨{start}, ∅, [],
            [CrawlEvent.addFrontier start, CrawlEvent.visit start], 1⟩) := by
  have hmp := resolveMp_pos env hs mpArg
  obtain ⟨j, hj⟩ : ∃ j, resolveMp env mpArg = j + 1 := ⟨resolveMp env mpArg - 1, by omega⟩
  have hloop :
      crawlLoop env baseDomain (resolveMp env mpArg) (resolveMp env mpArg + 1)
          ⟨∅, {start}, [], [CrawlEvent.addFrontier start], 0⟩ =
        if env.timeout * (resolveMp env mpArg) < env.elapsed 0 then
          (⟨∅, {start}, [], [CrawlEvent.addFrontier start], 0⟩ : CrawlState)
        else
          ⟨{start}, ∅, [],
            [CrawlEvent.addFrontier start, CrawlEvent.visit start], 1⟩ := by
    rw [hj]
    have hguard :
        ¬((⟨∅, {start}, [], [CrawlEvent.addFrontier start], 0⟩ : CrawlState).toVisit = ∅
          ∨ j + 1 ≤ (⟨∅, {start}, [], [CrawlEvent.addFrontier start], 0⟩ : CrawlState).visited.card) := by
      push_neg
      refine ⟨Finset.singleton_ne_empty start, ?_⟩
      simp
    by_cases ht : env.timeout * ((j + 1 : Nat) : ℚ) < env.elapsed 0
    · unfold crawlLoop
      rw [if_neg hguard]
      simp only [ht, if_pos]
    · unfold crawlLoop
      rw [if_neg hguard]
      simp only [CrawlState.round] at ht ⊢
      rw [if_neg ht, crawlRound_seed env hs,
        crawlLoop_of_guard env baseDomain (j + 1) (j + 1)
          ⟨{start}, ∅, [],
            [CrawlEvent.addFrontier start, CrawlEvent.visit start], 1⟩
          (Or.inl rfl), if_neg ht]
  unfold crawl
  rw [hv, hd]
  simp only [Bool.not_true, Bool.false_eq_true, if_false, hloop]
  split <;> rfl

lemma crawlLoop_results (env : CrawlEnv) (baseDomain : String) (mp : Nat) :
    ∀ (fuel : Nat) (s : CrawlState),
      (crawlLoop env baseDomain mp fuel s).results = s.results := by
  intro fuel
  induction fuel with
  | zero => intro s; rfl
  | succ n ih =>
      intro s
      unfold crawlLoop
      split
      · rfl
      · split
        · rfl
        · rw [ih, crawlRound_eq]

/-- Whenever `crawl` returns, its results list is empty. -/
lemma crawl_results_nil {env : CrawlEnv} {start : String} {mpArg : Option Nat}
    {l : List PageRes} {st : CrawlState}
    (h : crawl env start mpArg = Except.ok (l, st)) : l = [] := by
  unfold crawl at h
  cases hv : env.validateUrl start with
  | false => rw [hv] at h; simp at h
  | true =>
      rw [hv] at h
      simp only [Bool.not_true, Bool.false_eq_true, if_false] at h
      cases hd : env.getDomain start with
      | none => rw [hd] at h; exact absurd h (by simp)
      | some bd =>
          rw [hd] at h
          simp only [Except.ok.injEq, Prod.mk.injEq] at h
          rw [← h.1, crawlLoop_results]

lemma parseWebsite_empty (env : CrawlEnv) (start : String) :
    (parseWebsite env start).emails = [] ∧ (parseWebsite env start).phones = [] := by
  unfold parseWebsite
  have hfall :
      (match mkContactInfo env start [] [] with
        | some ci => ci
        | none => (⟨"https://error.invalid", [], []⟩ : ContactInfo)).emails = []
      ∧ (match mkContactInfo env start [] [] with
        | some ci => ci
        | none => (⟨"https://error.invalid", [], []⟩ : ContactInfo)).phones = [] := by
    unfold mkContactInfo
    by_cases hu : env.isHttpUrl start
    · simp [hu, validateEmailsList, validatePhonesList]
    · simp [hu]
  cases hcr : crawl env start none with
  | error e => exact hfall
  | ok pr =>
      obtain ⟨pages, st⟩ := pr
      have hp : pages = [] := crawl_results_nil hcr
      subst hp
      have hagg : aggEmails [] = [] := by
        unfold aggEmails
        simp [Finset.sort_empty]
      have hagg2 : aggPhones [] = [] := by
        unfold aggPhones
        simp [Finset.sort_empty]
      dsimp only
      rw [hagg, hagg2]
      unfold mkContactInfo
      by_cases hu : env.isHttpUrl start
      · simp [hu, validateEmailsList, validatePhonesList]
      · simp [hu]

lemma sampleEnv_sane : sampleEnv.Sane := by
  refine ⟨?_, ?_, ?_, ?_, ?_, ?_⟩
  · intro S
    exact (Finset.sort_nodup _ S).sublist (List.take_sublist 1 _)
  · intro S u hu
    exact (Finset.mem_sort (α := String) (· ≤ ·)).mp
      (List.take_subset 1 _ hu)
  · intro S hS
    have hcard : 0 < S.card := Finset.card_pos.mpr (Finset.nonempty_iff_ne_empty.mpr hS)
    have hlen : 0 < ((S.sort (· ≤ ·)).take 1).length := by
      rw [List.length_take, Finset.length_sort]
      omega
    exact List.ne_nil_of_length_pos hlen
  · intro S
    simp [sampleEnv, List.length_take_le 1 (S.sort (· ≤ ·))]
  · intro l
    exact List.Perm.refl l
  · exact le_refl 1

lemma resolveMp_sample : resolveMp sampleEnv (some 1) = 1 := rfl

lemma resolveMp_some {env : CrawlEnv} {k : Nat} (hk : 1 ≤ k) :
    resolveMp env (some k) = k := by
  show (if k = 0 then env.maxPages else k) = k
  rw [if_neg (by omega)]

lemma sampleEnv_run : crawl sampleEnv "u" (some 1) = Except.ok ([], sampleFinal) := by
  rw [crawl_run sampleEnv sampleEnv_sane "u" (some 1) "e.com" rfl rfl,
    resolveMp_sample]
  have hne : ¬sampleEnv.timeout * ((1 : Nat) : ℚ) < sampleEnv.elapsed 0 := by
    show ¬(1 : ℚ) * ((1 : Nat) : ℚ) < 0
    norm_num
  rw [if_neg hne]
  rfl

/-- Every value produced by `normalize_phone` starts with a plus. -/
lemma normalizePhone_head {x y : String} (h : normalizePhone x = some y) :
    y.data.head? = some '+' := by
  unfold normalizePhone at h
  cases h1 : x.isEmpty with
  | true => rw [h1] at h; simp at h
  | false =>
      rw [h1] at h
      cases h2 : isLikelyPhone x with
      | false => rw [h2] at h; simp at h
      | true =>
          rw [h2] at h
          simp only [Bool.not_true, Bool.false_eq_true, if_false] at h
          iterate 9 (all_goals try split at h)
          all_goals try exact Option.noConfusion h
          all_goals rw [← Option.some.inj h]
          · rename_i hcond
            have hp : headIsPlus (cleanPhone x).data = true := hcond
            unfold headIsPlus at hp
            simpa using hp
          all_goals rw [String.data_append]
          all_goals rfl

lemma normalizePhone_ne_empty {x y : String} (h : normalizePhone x = some y) :
    y ≠ "" := by
  intro he
  have hh := normalizePhone_head h
  rw [he] at hh
  exact absurd hh (by decide)

/-! ## The claims -/

/-- Claim C1: `process_page` passes two arguments (html, url) to
`extract_from_html`, whose definition accepts only the html string, so the
call raises `TypeError`; the blanket handler turns every page into
`(url, None, set())`, hence every completed `crawl()` returns an empty
results list and `parse_website` returns a `ContactInfo` whose email and
phone lists are both empty. -/
theorem claim1_extract_call_empty_results (env : CrawlEnv) (startUrl : String)
    (mpArg : Option Nat) (l : List PageRes) (st : CrawlState)
    (h : crawl env startUrl mpArg = Except.ok (l, st)) :
    (∀ html url, callExtract env.extractFn [html, url] =
        Except.error PyError.typeError)
      ∧ l = []
      ∧ (parseWebsite env startUrl).emails = []
      ∧ (parseWebsite env startUrl).phones = [] :=
  ⟨fun _ _ => rfl, crawl_results_nil h, (parseWebsite_empty env startUrl).1,
    (parseWebsite_empty env startUrl).2⟩

/-- Witness for C1 at a concrete environment and seed. -/
theorem claim1_witness :
    (∀ html url, callExtract sampleEnv.extractFn [html, url] =
        Except.error PyError.typeError)
      ∧ ([] : List PageRes) = []
      ∧ (parseWebsite sampleEnv "u").emails = []
      ∧ (parseWebsite sampleEnv "u").phones = [] :=
  claim1_extract_call_empty_results sampleEnv "u" (some 1) [] sampleFinal
    sampleEnv_run

/-- Claim C2 as stated is false on the code: `"2856913"` has 7 digits, no
leading `+`, and no prefix in `VALID_COUNTRY_CODES`, yet `is_likely_phone`
(which takes no page-URL argument at all) accepts it via the local-number
branch. -/
theorem claim2_counterexample :
    "2856913".data.all Char.isDigit = true
      ∧ "2856913".length = 7
      ∧ headIsPlus "2856913".data = false
      ∧ validCountryCodes.contains "2" = false
      ∧ validCountryCodes.contains "28" = false
      ∧ validCountryCodes.contains "285" = false
      ∧ isLikelyPhone "2856913" = true := by
  decide

/-- Claim C2, amended: `is_likely_phone` takes no domain context; a digit
string without a leading `+` and with 13 or more digits is always rejected
(the local branch requires 7-12 digits), while 7-12 digit strings can be
accepted with no context at all. -/
theorem claim2_no_context_rejection (s : String)
    (hplus : headIsPlus (cleanPhone s).data = false)
    (hlen : 13 ≤ ((cleanPhone s).data.dropWhile (fun c => c == '+')).length) :
    isLikelyPhone s = false := by
  have hloc : localBranch ((cleanPhone s).data.dropWhile (fun c => c == '+')) = false := by
    unfold localBranch
    rw [decide_eq_false (by omega), Bool.false_and]
  simp [isLikelyPhone, likelyCore, hplus, hloc]

/-- Witness for the amended C2 at a 13-digit input. -/
theorem claim2_witness :
    headIsPlus (cleanPhone "4867205193846").data = false
      ∧ 13 ≤ ((cleanPhone "4867205193846").data.dropWhile (fun c => c == '+')).length
      ∧ isLikelyPhone "4867205193846" = false :=
  ⟨by decide, by decide,
    claim2_no_context_rejection "4867205193846" (by decide) (by decide)⟩

/-- Claim C3 as stated is false on the code: `normalize_phone` accepts
`"2856913"` and returns `"+2856913"`, but re-validation rejects that value
(7 digits after `+` with no valid country code fails the international
branch). -/
theorem claim3_counterexample :
    normalizePhone "2856913" = some "+2856913"
      ∧ isLikelyPhone "+2856913" = false := by
  decide

/-- Claim C3, amended: re-validation idempotence holds for inputs whose
cleaned form already starts with `+` — there `normalize_phone` returns the
cleaned string unchanged, which still passes `is_likely_phone`. -/
theorem claim3_normalize_revalidation (x y : String)
    (hplus : headIsPlus (cleanPhone x).data = true)
    (h : normalizePhone x = some y) : isLikelyPhone y = true := by
  have hxe : x.isEmpty = false := by
    cases hxe : x.isEmpty with
    | false => rfl
    | true =>
        unfold normalizePhone at h
        rw [hxe] at h
        simp at h
  have hlik : isLikelyPhone x = true := by
    cases hl : isLikelyPhone x with
    | true => rfl
    | false =>
        unfold normalizePhone at h
        rw [hxe, hl] at h
        simp at h
  have hy : cleanPhone x = y := by
    unfold normalizePhone at h
    rw [hxe, hlik] at h
    simp only [Bool.false_eq_true, if_false, Bool.not_true, hplus, if_true] at h
    exact Option.some.inj h
  rw [← hy]
  unfold isLikelyPhone at hlik ⊢
  rw [cleanPhone_idem]
  have h2 : likelyCore (cleanPhone x).data = true := by
    rw [Bool.and_eq_true] at hlik
    exact hlik.2
  have h3 : (cleanPhone x).isEmpty = false := by
    cases hemp : (cleanPhone x).isEmpty with
    | false => rfl
    | true =>
        rw [String.isEmpty_iff] at hemp
        rw [hemp] at hplus
        exact absurd hplus (by decide)
  rw [h3, h2]
  rfl

/-- Witness for the amended C3 at a concrete `+` number. -/
theorem claim3_witness :
    headIsPlus (cleanPhone "+79817535607").data = true
      ∧ normalizePhone "+79817535607" = some "+79817535607"
      ∧ isLikelyPhone "+79817535607" = true :=
  ⟨by decide, by decide,
    claim3_normalize_revalidation "+79817535607" "+79817535607" (by decide)
      (by decide)⟩

/-- Claim C4: a completed `crawl()` over a sane environment with
`maxPages = k ≥ 1` has at most `k` visited URLs, and its final state meets
the loop's terminal condition — empty frontier, visited count at `k`, or
elapsed time above `timeout * k`. -/
theorem claim4_crawl_termination (env : CrawlEnv) (hs : env.Sane)
    (start : String) (k : Nat) (hk : 1 ≤ k) (l : List PageRes)
    (st : CrawlState) (h : crawl env start (some k) = Except.ok (l, st)) :
    st.visited.card ≤ k
      ∧ (st.toVisit = ∅ ∨ k ≤ st.visited.card
          ∨ env.timeout * k < env.elapsed st.round) := by
  cases hv : env.validateUrl start with
  | false =>
      unfold crawl at h
      rw [hv] at h
      simp at h
  | true =>
      cases hd : env.getDomain start with
      | none =>
          unfold crawl at h
          rw [hv] at h
          simp only [Bool.not_true, Bool.false_eq_true, if_false] at h
          rw [hd] at h
          exact absurd h (by simp)
      | some bd =>
          rw [crawl_run env hs start (some k) bd hv hd, resolveMp_some hk] at h
          simp only [Except.ok.injEq, Prod.mk.injEq] at h
          obtain ⟨-, hst⟩ := h
          by_cases ht : env.timeout * (k : ℚ) < env.elapsed 0
          · rw [if_pos ht] at hst
            rw [← hst]
            refine ⟨by simp, Or.inr (Or.inr ?_)⟩
            exact ht
          · rw [if_neg ht] at hst
            rw [← hst]
            refine ⟨?_, Or.inl rfl⟩
            show ({start} : Finset String).card ≤ k
            rw [Finset.card_singleton]
            exact hk

/-- Witness for C4 at the sample environment with `k = 1`. -/
theorem claim4_witness :
    sampleFinal.visited.card ≤ 1
      ∧ (sampleFinal.toVisit = ∅ ∨ 1 ≤ sampleFinal.visited.card
          ∨ sampleEnv.timeout * 1 < sampleEnv.elapsed sampleFinal.round) :=
  claim4_crawl_termination sampleEnv sampleEnv_sane "u" 1 (by decide) []
    sampleFinal sampleEnv_run

/-- Claim C5: over one completed `crawl()` call, a URL is added to the
frontier only if never previously added and not yet visited, and a URL
enters the visited set at most once. -/
theorem claim5_frontier_discipline (env : CrawlEnv) (hs : env.Sane)
    (start : String) (mpArg : Option Nat) (l : List PageRes) (st : CrawlState)
    (h : crawl env start mpArg = Except.ok (l, st)) :
    frontierOk ∅ ∅ st.log = true ∧ (visitEvents st.log).Nodup := by
  cases hv : env.validateUrl start with
  | false =>
      unfold crawl at h
      rw [hv] at h
      simp at h
  | true =>
      cases hd : env.getDomain start with
      | none =>
          unfold crawl at h
          rw [hv] at h
          simp only [Bool.not_true, Bool.false_eq_true, if_false] at h
          rw [hd] at h
          exact absurd h (by simp)
      | some bd =>
          rw [crawl_run env hs start mpArg bd hv hd] at h
          simp only [Except.ok.injEq, Prod.mk.injEq] at h
          obtain ⟨-, hst⟩ := h
          by_cases ht : env.timeout * (resolveMp env mpArg : ℚ) < env.elapsed 0
          · rw [if_pos ht] at hst
            rw [← hst]
            constructor
            · simp [frontierOk]
            · simp [visitEvents]
          · rw [if_neg ht] at hst
            rw [← hst]
            constructor
            · simp [frontierOk]
            · simp [visitEvents]

/-- Witness for C5 at the sample environment. -/
theorem claim5_witness :
    frontierOk ∅ ∅ sampleFinal.log = true ∧ (visitEvents sampleFinal.log).Nodup :=
  claim5_frontier_discipline sampleEnv sampleEnv_sane "u" (some 1) []
    sampleFinal sampleEnv_run

/-- Claim C6 as stated is false on the code: in `"a+123"` the `+` is not at
position 0, yet `_clean_phone` keeps it as the leading `+` of the result
(the `+` survives `re.sub` and becomes position 0 of the cleaned string). -/
theorem claim6_counterexample :
    cleanPhone "a+123" = "+123" ∧ "a+123".data.head? = some 'a' := by
  decide

/-- Claim C6, amended: `_clean_phone` keeps exactly the digits of the input,
with a single leading `+` exactly when the first kept (digit-or-plus)
character of the input is a `+`; in particular a `+` preceded by a digit is
discarded, but a `+` preceded only by junk characters is promoted to
position 0. -/
theorem claim6_clean_characterization (s : String) :
    cleanPhone s =
      ⟨(if (s.data.filter keepChar).head? = some '+' then ['+'] else [])
        ++ s.data.filter Char.isDigit⟩ := by
  apply String.ext
  rw [cleanPhone_data, cleanPhoneList_eq]

/-- Claim C7 as stated is false on the code: the suspicious-prefix rejection
is applied before the `+`-branch and therefore also to numbers with a
leading `+`. `"+4945678123"` (valid German code 49, remainder in range) is
rejected purely because its digits start with `494`, while the same number
with prefix `484` is accepted. -/
theorem claim7_counterexample :
    headIsPlus (cleanPhone "+4945678123").data = true
      ∧ suspiciousStart
          ((cleanPhone "+4945678123").data.dropWhile (fun c => c == '+')) = true
      ∧ isLikelyPhone "+4945678123" = false
      ∧ isLikelyPhone "+4845678123" = true := by
  decide

/-- Claim C7, amended: the suspicious-prefix rejection applies to every
number, with or without a leading `+`: any input whose cleaned digits start
with one of the configured prefixes is rejected by `is_likely_phone`. -/
theorem claim7_suspicious_rejection (s : String)
    (h : suspiciousStart
        ((cleanPhone s).data.dropWhile (fun c => c == '+')) = true) :
    isLikelyPhone s = false := by
  simp [isLikelyPhone, likelyCore, h]

/-- Witness for the amended C7 at a `+` number. -/
theorem claim7_witness :
    suspiciousStart
        ((cleanPhone "+4945678123").data.dropWhile (fun c => c == '+')) = true
      ∧ isLikelyPhone "+4945678123" = false :=
  ⟨by decide, claim7_suspicious_rejection "+4945678123" (by decide)⟩

/-- Claim C9: `validate_and_normalize_phones` returns a sorted list without
duplicates containing exactly the normalized results that also pass the
plausibility re-check. -/
theorem claim9_batch_sorted_nodup (S : List String) (y : String) :
    List.Sorted (· ≤ ·) (validateAndNormalizePhones S)
      ∧ (validateAndNormalizePhones S).Nodup
      ∧ (y ∈ validateAndNormalizePhones S ↔
          ∃ x ∈ S, normalizePhone x = some y ∧ isLikelyPhone y = true) := by
  refine ⟨Finset.sort_sorted _ _, Finset.sort_nodup _ _, ?_⟩
  unfold validateAndNormalizePhones
  rw [Finset.mem_sort, List.mem_toFinset, List.mem_filter, List.mem_filterMap]
  constructor
  · rintro ⟨⟨x, hxS, hx⟩, hp⟩
    rw [Bool.and_eq_true] at hp
    exact ⟨x, hxS, hx, hp.2⟩
  · rintro ⟨x, hxS, hx, hy⟩
    refine ⟨⟨x, hxS, hx⟩, ?_⟩
    have hne : y.isEmpty = false := by
      cases hemp : y.isEmpty with
      | false => rfl
      | true =>
          rw [String.isEmpty_iff] at hemp
          exact absurd hemp (normalizePhone_ne_empty hx)
    rw [hne, hy]
    rfl

/-- Claim C8: no per-page failure escapes the crawl loop: `process_page`
returns `(url, None, set())` for every fetch outcome, and `crawl` (with the
seed reachable in time) still returns its result list with the seed marked
visited, even when every page fails. -/
theorem claim8_failures_contained (env : CrawlEnv) (hs : env.Sane)
    (start : String) (k : Nat) (hk : 1 ≤ k) (bd : String)
    (hv : env.validateUrl start = true) (hd : env.getDomain start = some bd)
    (ht : ¬env.timeout * (k : ℚ) < env.elapsed 0) :
    (∀ url b, processPage env url b = (url, none, ∅))
      ∧ ∃ st, crawl env start (some k) = Except.ok ([], st)
          ∧ start ∈ st.visited := by
  refine ⟨fun url b => processPage_eq env url b,
    ⟨⟨{start}, ∅, [],
      [CrawlEvent.addFrontier start, CrawlEvent.visit start], 1⟩, ?_, ?_⟩⟩
  · rw [crawl_run env hs start (some k) bd hv hd, resolveMp_some hk, if_neg ht]
  · exact Finset.mem_singleton_self start

/-- Witness for C8 at the all-failing sample environment. -/
theorem claim8_witness :
    (∀ url b, processPage sampleEnv url b = (url, none, ∅))
      ∧ ∃ st, crawl sampleEnv "u" (some 1) = Except.ok ([], st)
          ∧ "u" ∈ st.visited :=
  claim8_failures_contained sampleEnv sampleEnv_sane "u" 1 (by decide) "e.com"
    rfl rfl (by norm_num [sampleEnv])

/-- Claim C10: an email whose domain (the part after the first `@`,
lowercased) is in `BAD_DOMAINS` is rejected regardless of its syntax. -/
theorem claim10_deny_list (e : String)
    (h : badDomains.contains (strLower (emailDomain e)) = true) :
    isValidEmail e = false := by
  simp only [isValidEmail]
  simp
  intro _ _ _ _ _ _ _ hnot _
  exact absurd (List.elem_iff.mp h) hnot

/-- Witness for C10: `admin@example.com` is deny-listed and rejected. -/
theorem claim10_witness :
    badDomains.contains (strLower (emailDomain "admin@example.com")) = true
      ∧ isValidEmail "admin@example.com" = false :=
  ⟨by decide, claim10_deny_list "admin@example.com" (by decide)⟩

end ContactParser
